import Mathlib

/-!
Verification of the VM host environment and the IBC native validity predicate
of the anoma ledger.

The definitions below are a shallow embedding of:
- `shared/src/vm/host_env.rs` (the TX and VP host call implementations), and
- `shared/src/ledger/ibc/mod.rs`, `shared/src/ledger/ibc/client.rs`
  (the IBC native validity predicate).

Collaborators of those files that are not part of the provided sources
(the write log, storage, gas meter, key/address types, `vp_env` helpers
and the external `ibc` crate) are modelled from the specification; every
such definition carries a doc comment explaining what is modelled.

Machine integers (u64/i64) are modelled as `Nat`/`Int`: no length computed
here can reach `2^63`, so the `try_into` conversions of the source, which
fail only beyond that bound, are elided.  Rust functions that mutate the
host context in place and return a `Result` are modelled as functions
returning the mutated state paired with an `Except` value; a Rust panic
(`unwrap` / `unreachable!`) is modelled by an outer `Option` returning
`none`.
-/

/-- Decidable equality for `Except`, used to evaluate host call results on
concrete inputs. -/
instance {ε α : Type} [DecidableEq ε] [DecidableEq α] : DecidableEq (Except ε α) := fun x y =>
  match x, y with
  | .ok a, .ok b =>
    match decEq a b with
    | .isTrue h => .isTrue (h ▸ rfl)
    | .isFalse h => .isFalse fun hc => h (Except.ok.inj hc)
  | .error a, .error b =>
    match decEq a b with
    | .isTrue h => .isTrue (h ▸ rfl)
    | .isFalse h => .isFalse fun hc => h (Except.error.inj hc)
  | .ok _, .error _ => .isFalse fun hc => Except.noConfusion hc
  | .error _, .ok _ => .isFalse fun hc => Except.noConfusion hc

namespace Anoma

/-- Internal addresses: enumerated fixed identifiers of built-in validity
predicates (the IBC VP among them).  Modelled from the spec: the concrete
enum lives in `types/address.rs`, which is not under the provided sources. -/
inductive InternalAddress
  | Ibc
  | Other (n : Nat)
deriving DecidableEq, Repr

/-- Addresses: established (content-addressed), implicit (from a public key
hash) or internal.  Modelled from the spec (`types/address.rs` is not under
the provided sources). -/
inductive Address
  | Established (h : Nat)
  | Implicit (h : Nat)
  | Internal (i : InternalAddress)
deriving DecidableEq, Repr

/-- Modelled from the spec: the raw string form of an address; the internal
IBC address prints as the reserved first segment `#IBC`. -/
def Address.raw : Address → String
  | .Established n => "#est" ++ toString n
  | .Implicit n => "#imp" ++ toString n
  | .Internal .Ibc => "#IBC"
  | .Internal (.Other n) => "#int" ++ toString n

/-- The `Address::Implicit(_) | Address::Internal(_)` pattern of the
address-existence check in `tx_write`. -/
def Address.isImplicitOrInternal : Address → Bool
  | .Implicit _ => true
  | .Internal _ => true
  | .Established _ => false

/-- A key segment: an address or a string.  Modelled from the spec
(`types/storage.rs` is not under the provided sources); integer segments
are subsumed by string segments here. -/
inductive DbKeySeg
  | AddressSeg (addr : Address)
  | StringSeg (s : String)
deriving DecidableEq, Repr

/-- The raw string of a segment, as used by `get_ibc_prefix`. -/
def DbKeySeg.raw : DbKeySeg → String
  | .AddressSeg a => a.raw
  | .StringSeg s => s

/-- A structured storage key: an ordered list of segments. -/
structure Key where
  segments : List DbKeySeg
deriving DecidableEq, Repr

/-- The raw string of a key (segments joined by `/`). -/
def Key.raw (k : Key) : String :=
  String.intercalate "/" (k.segments.map DbKeySeg.raw)

/-- `key.find_addresses()`: every address segment occurring in the key.
Modelled from the spec (`types/storage.rs` is not under the provided
sources). -/
def Key.find_addresses (k : Key) : List Address :=
  k.segments.filterMap fun s => match s with
    | .AddressSeg a => some a
    | .StringSeg _ => none

/-- Modelled from the spec: `Key::validity_predicate(addr)` - the key under
the reserved `#validity_predicate` first segment that stores the account
code of `addr`. -/
def Key.validity_predicate (addr : Address) : Key :=
  ⟨[DbKeySeg.StringSeg "#validity_predicate", DbKeySeg.AddressSeg addr]⟩

/-- Association list lookup keyed by `Key`. -/
def assocGet {α : Type} (l : List (Key × α)) (k : Key) : Option α :=
  (l.find? fun p => decide (p.1 = k)).map Prod.snd

/-- Association list erasure keyed by `Key`. -/
def assocErase {α : Type} (l : List (Key × α)) (k : Key) : List (Key × α) :=
  l.filter fun p => decide (p.1 ≠ k)

/-- A write log entry: `Write`, `Delete` or `InitAccount` (the
`StorageModification` enum of `storage/write_log.rs`, modelled from the
spec since that file is not under the provided sources). -/
inductive StorageModification
  | Write (value : List Nat)
  | Delete
  | InitAccount (vp : List Nat) (addr : Address)
deriving DecidableEq, Repr

/-- Modelled from the spec: the storage-access gas of a write log entry is
proportional to the returned value length (zero if absent). -/
def StorageModification.gasLen : StorageModification → Nat
  | .Write v => v.length
  | .Delete => 0
  | .InitAccount vp _ => vp.length

/-- The write log: two scopes of key-to-entry maps, with at most one entry
per scope per key.  Modelled from the spec (`storage/write_log.rs` is not
under the provided sources). -/
structure WriteLog where
  txScope : List (Key × StorageModification)
  blockScope : List (Key × StorageModification)
deriving DecidableEq, Repr

/-- Modelled from the spec: `write_log.read(key)` consults tx scope, then
block scope; the gas is proportional to the returned value length. -/
def WriteLog.read (wl : WriteLog) (k : Key) : Option StorageModification × Nat :=
  match assocGet wl.txScope k with
  | some m => (some m, m.gasLen)
  | none =>
    match assocGet wl.blockScope k with
    | some m => (some m, m.gasLen)
    | none => (none, 0)

/-- Failures of write log mutations (spec §4.1). -/
inductive WriteLogError
  | UpdateVpOfNewAccount
  | DeleteVp
deriving DecidableEq, Repr

/-- Modelled from the spec: `write_log.write(key, value)` records
`Write(value)` at tx scope and fails if a prior `InitAccount` entry exists
under the key; gas is proportional to the value length.  The signed size
diff it also returns is dropped by every caller in the sources and is
omitted. -/
def WriteLog.write (wl : WriteLog) (k : Key) (v : List Nat) :
    Except WriteLogError (WriteLog × Nat) :=
  match assocGet wl.txScope k with
  | some (.InitAccount _ _) => .error .UpdateVpOfNewAccount
  | _ => .ok ({ wl with txScope := (k, .Write v) :: assocErase wl.txScope k }, v.length)

/-- Committed storage, modelled from the spec as a read-only key/value
association (the storage engine below the write log is an external
collaborator). -/
abbrev StorageT := List (Key × List Nat)

/-- Modelled from the spec: `storage.read(k)` returns the optional value and
a gas cost proportional to the value length. -/
def storageRead (s : StorageT) (k : Key) : Option (List Nat) × Nat :=
  match assocGet s k with
  | some v => (some v, v.length)
  | none => (none, 0)

/-- Modelled from the spec: `storage.has_key(k)` with a fixed access gas. -/
def storageHasKey (s : StorageT) (k : Key) : Bool × Nat :=
  ((assocGet s k).isSome, 1)

/-- A gas meter: a monotone counter with a hard ceiling (both the block
meter and the VP meter follow this discipline).  Modelled from the spec
(`ledger/gas.rs` is not under the provided sources). -/
structure GasMeter where
  used : Nat
  ceiling : Nat
deriving DecidableEq, Repr

/-- Modelled from the spec: `add(n)` fails once the ceiling would be
exceeded. -/
def GasMeter.add (g : GasMeter) (n : Nat) : Except Unit GasMeter :=
  if g.used + n ≤ g.ceiling then .ok { g with used := g.used + n } else .error ()

/-- Modelled from the spec: guest linear memory as a byte list; a read
returns the bytes and a per-byte gas cost, failing on an out-of-range
pointer/length. -/
def memReadBytes (mem : List Nat) (ptr len : Nat) : Option (List Nat × Nat) :=
  if ptr + len ≤ mem.length then some ((mem.drop ptr).take len, len) else none

/-- Modelled from the spec: writing bytes into guest memory at a pointer,
returning the new memory and a per-byte gas cost, failing when out of
range. -/
def memWriteBytes (mem : List Nat) (ptr : Nat) (v : List Nat) :
    Option (List Nat × Nat) :=
  if ptr + v.length ≤ mem.length then
    some (mem.take ptr ++ v ++ mem.drop (ptr + v.length), v.length)
  else none

/-- Modelled from the spec: the per-byte gas of reading a key string from
guest memory (`memory.read_string`), proportional to its raw length. -/
def keyReadGas (k : Key) : Nat := (Key.raw k).length

/-- The tx runtime errors of `host_env.rs` (payloads kept only where a
claim needs them; message strings are not reproduced). -/
inductive TxRuntimeError
  | OutOfGas
  | UnknownAddressStorageModification (addr : Address)
  | UpdateVpInvalid
  | InitAccountInvalidVpWasm
  | StorageModificationError (e : WriteLogError)
  | StorageError
  | StorageDataError
  | EncodingError
  | AddressError
  | NumConversionError
  | MemoryError
deriving DecidableEq, Repr

/-- The mutable parts of the TX host context (`TxCtx` plus the VM memory):
write log, gas meter, verifier set, result buffer, guest memory and the
prefix iterator registry (each registered iterator is its not yet consumed
tail of storage pairs). -/
structure TxState where
  writeLog : WriteLog
  gas : GasMeter
  verifiers : List Address
  resultBuffer : Option (List Nat)
  memory : List Nat
  iterators : List (List (Key × List Nat))
deriving DecidableEq, Repr

/-- `tx_add_gas`: charge the block gas meter, surfacing exhaustion as
`OutOfGas`.  The state is returned alongside the result because the Rust
code mutates the context in place and returns only the error. -/
def addGasT (st : TxState) (n : Nat) : TxState × Except TxRuntimeError Unit :=
  match st.gas.add n with
  | .ok g => ({ st with gas := g }, .ok ())
  | .error _ => (st, .error .OutOfGas)

/-- `tx_read` (host_env.rs): charge the key read, consult the write log
first (`Write` returns the value through the result buffer, `Delete`
returns -1, `InitAccount` returns the new account VP), and fall through to
storage only when the log has no entry.  The key is taken already parsed;
memory read gas is charged via `keyReadGas`. -/
def tx_read (storage : StorageT) (st0 : TxState) (k : Key) :
    TxState × Except TxRuntimeError Int :=
  let a1 := addGasT st0 (keyReadGas k)
  match a1.2 with
  | .error e => (a1.1, .error e)
  | .ok _ =>
    let r := a1.1.writeLog.read k
    let a2 := addGasT a1.1 r.2
    match a2.2 with
    | .error e => (a2.1, .error e)
    | .ok _ =>
      match r.1 with
      | some (.Write value) =>
        ({ a2.1 with resultBuffer := some value }, .ok (Int.ofNat value.length))
      | some .Delete => (a2.1, .ok (-1))
      | some (.InitAccount vp _) =>
        ({ a2.1 with resultBuffer := some vp }, .ok (Int.ofNat vp.length))
      | none =>
        let rs := storageRead storage k
        let a3 := addGasT a2.1 rs.2
        match a3.2 with
        | .error e => (a3.1, .error e)
        | .ok _ =>
          match rs.1 with
          | some v => ({ a3.1 with resultBuffer := some v }, .ok (Int.ofNat v.length))
          | none => (a3.1, .ok (-1))

/-- `tx_result_buffer` (host_env.rs): take the buffered value (the
`unwrap` on an empty buffer is a panic, modelled by the outer `none`),
write it to guest memory at the given pointer and charge the write gas. -/
def tx_result_buffer (st : TxState) (ptr : Nat) :
    Option (TxState × Except TxRuntimeError Unit) :=
  match st.resultBuffer with
  | none => none
  | some value =>
    let st1 := { st with resultBuffer := none }
    match memWriteBytes st1.memory ptr value with
    | none => some (st1, .error .MemoryError)
    | some p => some (addGasT { st1 with memory := p.1 } p.2)

/-- The address-existence loop of `tx_write`: for each address found in the
key, skip implicit and internal addresses, otherwise require the VP key of
the address to have an entry in the write log or be present in storage;
the first failing address aborts with
`UnknownAddressStorageModification`. -/
def checkAddrLoop (storage : StorageT) (st : TxState) :
    List Address → TxState × Except TxRuntimeError Unit
  | [] => (st, .ok ())
  | addr :: rest =>
    if addr.isImplicitOrInternal then checkAddrLoop storage st rest
    else
      let vpKey := Key.validity_predicate addr
      let r := st.writeLog.read vpKey
      let a1 := addGasT st r.2
      match a1.2 with
      | .error e => (a1.1, .error e)
      | .ok _ =>
        if r.1.isNone then
          let hk := storageHasKey storage vpKey
          let a2 := addGasT a1.1 hk.2
          match a2.2 with
          | .error e => (a2.1, .error e)
          | .ok _ =>
            if hk.1 then checkAddrLoop storage a2.1 rest
            else (a2.1, .error (.UnknownAddressStorageModification addr))
        else checkAddrLoop storage a1.1 rest

/-- `tx_write` (host_env.rs): charge the key and value reads, run the
address-existence check over `key.find_addresses()`, then record the write
in the write log and charge its gas. -/
def tx_write (storage : StorageT) (st0 : TxState) (k : Key) (value : List Nat) :
    TxState × Except TxRuntimeError Unit :=
  let a1 := addGasT st0 (keyReadGas k)
  match a1.2 with
  | .error e => (a1.1, .error e)
  | .ok _ =>
    let a2 := addGasT a1.1 value.length
    match a2.2 with
    | .error e => (a2.1, .error e)
    | .ok _ =>
      let chk := checkAddrLoop storage a2.1 k.find_addresses
      match chk.2 with
      | .error e => (chk.1, .error e)
      | .ok _ =>
        match chk.1.writeLog.write k value with
        | .error e => (chk.1, .error (.StorageModificationError e))
        | .ok p => addGasT { chk.1 with writeLog := p.1 } p.2

/-- Set insertion for the verifier set (`HashSet::insert`). -/
def insertAddr (l : List Address) (a : Address) : List Address :=
  if a ∈ l then l else a :: l

/-- `tx_insert_verifier` (host_env.rs): charge the address string read,
decode it (decoding is modelled as total since the address arrives already
structured), insert it into the verifier set and charge `addr_len` gas. -/
def tx_insert_verifier (st0 : TxState) (addr : Address) :
    TxState × Except TxRuntimeError Unit :=
  let a1 := addGasT st0 addr.raw.length
  match a1.2 with
  | .error e => (a1.1, .error e)
  | .ok _ =>
    addGasT { a1.1 with verifiers := insertAddr a1.1.verifiers addr } addr.raw.length

/-- Model of the borsh serialization of the `KeyVal { key, val }` pairs
returned by iterator host calls: an injective, executable encoding. -/
def encodeKeyVal (k : Key) (v : List Nat) : List Nat :=
  (Key.raw k).length :: ((Key.raw k).toList.map Char.toNat) ++ v.length :: v

/-- The loop of `tx_iter_next` (host_env.rs): pop storage pairs off the
iterator; for each pair charge the iterator and write log read gas, then
overlay the write log: a `Write` entry yields the written value, `Delete`
and `InitAccount` entries are skipped, no entry yields the storage value;
an exhausted iterator yields -1.  Returns the gas meter, the result
buffer, the remaining iterator tail and the result. -/
def txIterLoop (wl : WriteLog) (g : GasMeter) (buf : Option (List Nat)) :
    List (Key × List Nat) →
    GasMeter × Option (List Nat) × List (Key × List Nat) × Except TxRuntimeError Int
  | [] => (g, buf, [], .ok (-1))
  | p :: rest =>
    let r := wl.read p.1
    match g.add (p.2.length + r.2) with
    | .error _ => (g, buf, rest, .error .OutOfGas)
    | .ok g1 =>
      match r.1 with
      | some (.Write w) =>
        let kv := encodeKeyVal p.1 w
        (g1, some kv, rest, .ok (Int.ofNat kv.length))
      | some .Delete => txIterLoop wl g1 buf rest
      | some (.InitAccount _ _) => txIterLoop wl g1 buf rest
      | none =>
        let kv := encodeKeyVal p.1 p.2
        (g1, some kv, rest, .ok (Int.ofNat kv.length))

/-- `tx_iter_next` (host_env.rs): look the iterator up by its handle (a
missing handle behaves as an exhausted iterator, as `iterators.next`
returns nothing for it) and run the overlay loop, storing back the
consumed iterator. -/
def tx_iter_next (st : TxState) (id : Nat) : TxState × Except TxRuntimeError Int :=
  match st.iterators.get? id with
  | none => (st, .ok (-1))
  | some iter =>
    let r := txIterLoop st.writeLog st.gas st.resultBuffer iter
    ({ st with gas := r.1, resultBuffer := r.2.1, iterators := st.iterators.set id r.2.2.1 },
     r.2.2.2)

/-- The VP runtime errors of `vp_env.rs` (modelled from the spec; the
variants relevant here mirror the tx ones). -/
inductive VpRuntimeError
  | OutOfGas
  | StorageError
  | StorageDataError
  | EncodingError
  | NumConversionError
  | MemoryError
deriving DecidableEq, Repr

/-- The mutable parts of the VP host context: the VP gas meter, the result
buffer and the guest memory (the storage, write log and tx are read-only
and passed separately). -/
structure VpState where
  gas : GasMeter
  resultBuffer : Option (List Nat)
  memory : List Nat
deriving DecidableEq, Repr

/-- `vp_env::add_gas`: charge the VP gas meter, surfacing exhaustion. -/
def addGasV (st : VpState) (n : Nat) : VpState × Except VpRuntimeError Unit :=
  match st.gas.add n with
  | .ok g => ({ st with gas := g }, .ok ())
  | .error _ => (st, .error .OutOfGas)

/-- `vp_result_buffer` (host_env.rs): take the buffered value (the
`unwrap` on an empty buffer is a panic, modelled by the outer `none`),
write it to guest memory and charge the write gas. -/
def vp_result_buffer (st : VpState) (ptr : Nat) :
    Option (VpState × Except VpRuntimeError Unit) :=
  match st.resultBuffer with
  | none => none
  | some value =>
    let st1 := { st with resultBuffer := none }
    match memWriteBytes st1.memory ptr value with
    | none => some (st1, .error .MemoryError)
    | some p => some (addGasV { st1 with memory := p.1 } p.2)

/-- A transaction: code bytes and optional data bytes (`proto::Tx`). -/
structure Tx where
  code : List Nat
  data : Option (List Nat)
deriving DecidableEq, Repr

/-- `VERIFY_TX_SIG_GAS_COST` (host_env.rs line 28). -/
def VERIFY_TX_SIG_GAS_COST : Nat := 1000

/-- Modelled from the spec: borsh deserialization of an ed25519 public key,
failing on data of the wrong length. -/
def decodePublicKey (l : List Nat) : Option (List Nat) :=
  if l.length = 32 then some l else none

/-- Modelled from the spec: borsh deserialization of an ed25519 signature,
failing on data of the wrong length. -/
def decodeSignature (l : List Nat) : Option (List Nat) :=
  if l.length = 64 then some l else none

/-- `vp_verify_tx_signature` (host_env.rs): read the public key bytes from
guest memory (per-byte gas) and decode them, read the signature bytes
(per-byte gas) and decode them, charge the fixed
`VERIFY_TX_SIG_GAS_COST`, and return 1 when the tx is signed by the key
producing the signature and 0 otherwise.  The ed25519 check itself
(`verify_tx_sig`, an external cryptographic primitive) is a parameter. -/
def vp_verify_tx_signature (verify : List Nat → Tx → List Nat → Bool) (tx : Tx)
    (st0 : VpState) (pkPtr pkLen sigPtr sigLen : Nat) :
    VpState × Except VpRuntimeError Int :=
  match memReadBytes st0.memory pkPtr pkLen with
  | none => (st0, .error .MemoryError)
  | some pkR =>
    let a1 := addGasV st0 pkR.2
    match a1.2 with
    | .error e => (a1.1, .error e)
    | .ok _ =>
      match decodePublicKey pkR.1 with
      | none => (a1.1, .error .EncodingError)
      | some pk =>
        match memReadBytes a1.1.memory sigPtr sigLen with
        | none => (a1.1, .error .MemoryError)
        | some sigR =>
          let a2 := addGasV a1.1 sigR.2
          match a2.2 with
          | .error e => (a2.1, .error e)
          | .ok _ =>
            match decodeSignature sigR.1 with
            | none => (a2.1, .error .EncodingError)
            | some sg =>
              let a3 := addGasV a2.1 VERIFY_TX_SIG_GAS_COST
              match a3.2 with
              | .error e => (a3.1, .error e)
              | .ok _ => (a3.1, .ok (if verify pk tx sg then 1 else 0))

/-! ## The IBC native validity predicate -/

/-- The read-only native VP context (`native_vp::Ctx`): committed storage
and the write log of the validated tx.  Modelled from the spec
(`native_vp.rs` is not under the provided sources); its gas metering is
omitted because no claim concerns it and, being pure here, its reads
cannot fail. -/
structure Ctx where
  storage : StorageT
  writeLog : WriteLog
deriving DecidableEq, Repr

/-- Modelled from the spec: `read_pre` returns the storage value only,
ignoring the write log. -/
def Ctx.read_pre (c : Ctx) (k : Key) : Option (List Nat) :=
  (storageRead c.storage k).1

/-- Modelled from the spec: `read_post` overlays the write log on storage,
mirroring the tx-side overlay of `tx_read`: `Write` yields the written
value, `Delete` hides the key, `InitAccount` yields the new VP, no entry
falls through to storage. -/
def Ctx.read_post (c : Ctx) (k : Key) : Option (List Nat) :=
  match (c.writeLog.read k).1 with
  | some (.Write v) => some v
  | some .Delete => none
  | some (.InitAccount vp _) => some vp
  | none => (storageRead c.storage k).1

/-- Modelled from the spec: `has_key_pre` consults storage only. -/
def Ctx.has_key_pre (c : Ctx) (k : Key) : Bool :=
  (storageHasKey c.storage k).1

/-- Modelled from the spec: `has_key_post` mirrors `tx_has_key`:
`Write`/`InitAccount` present, `Delete` absent, no entry falls through to
storage. -/
def Ctx.has_key_post (c : Ctx) (k : Key) : Bool :=
  match (c.writeLog.read k).1 with
  | some (.Write _) => true
  | some .Delete => false
  | some (.InitAccount _ _) => true
  | none => (storageHasKey c.storage k).1

/-- The IBC state change classifier values (ibc/mod.rs). -/
inductive StateChange
  | Created
  | Updated
  | Deleted
  | NotExists
deriving DecidableEq, Repr

/-- The eleven known IBC prefixes plus `Unknown` (ibc/mod.rs). -/
inductive IbcPrefixKind
  | Client
  | Connection
  | Channel
  | Port
  | Capability
  | SeqSend
  | SeqRecv
  | SeqAck
  | Commitment
  | Receipt
  | Ack
  | Unknown
deriving DecidableEq, Repr

/-- `get_ibc_prefix` (ibc/mod.rs): classify the second segment of the key
into one of the eleven known prefixes; a missing or unrecognized segment
is `Unknown`. -/
def ibcPrefixOf (k : Key) : IbcPrefixKind :=
  match k.segments.get? 1 with
  | some seg =>
    if seg.raw = "clients" then .Client
    else if seg.raw = "connections" then .Connection
    else if seg.raw = "channelEnds" then .Channel
    else if seg.raw = "ports" then .Port
    else if seg.raw = "capabilities" then .Capability
    else if seg.raw = "nextSequenceSend" then .SeqSend
    else if seg.raw = "nextSequenceRecv" then .SeqRecv
    else if seg.raw = "nextSequenceAck" then .SeqAck
    else if seg.raw = "commitments" then .Commitment
    else if seg.raw = "receipts" then .Receipt
    else if seg.raw = "acks" then .Ack
    else .Unknown
  | none => .Unknown

/-- Modelled from the spec: `Key::ibc_key(path)` - the internal IBC address
as the first (reserved `#IBC`) segment followed by the path segments. -/
def ibcKey (path : List String) : Key :=
  ⟨DbKeySeg.AddressSeg (Address.Internal InternalAddress.Ibc) :: path.map DbKeySeg.StringSeg⟩

/-- Modelled from the spec: `key.is_ibc_key()` - the first segment is the
reserved `#IBC` internal address. -/
def Key.is_ibc_key (k : Key) : Bool :=
  k.segments.get? 0 = some (DbKeySeg.AddressSeg (Address.Internal InternalAddress.Ibc))

/-- Modelled from the spec: `Key::ibc_client_counter()` - the client
counter key under the `clients` prefix. -/
def ibcClientCounterKey : Key := ibcKey ["clients", "counter"]

/-- Modelled from the spec: `key.is_ibc_client_counter()`. -/
def Key.is_ibc_client_counter (k : Key) : Bool := k = ibcClientCounterKey

/-- Modelled from the spec: `storage::types::decode::<u64>`, an executable
stand-in for borsh integer decoding that fails on malformed bytes. -/
def decodeNat (l : List Nat) : Option Nat :=
  match l with
  | [n] => some n
  | _ => none

/-- The client module errors (ibc/client.rs); the message strings of the
source are abbreviated. -/
inductive ClientError
  | InvalidKey (s : String)
  | InvalidStateChange (s : String)
  | InvalidClient (s : String)
  | InvalidHeader (s : String)
  | ProofVerificationFailure (s : String)
  | DecodingTxData
  | DecodingIbcData
deriving DecidableEq, Repr

/-- The IBC VP errors (ibc/mod.rs); the connection, channel, port, packet
and sequence module errors are abstracted since those modules are not
under the provided sources. -/
inductive IbcError
  | NativeVpError
  | KeyError (s : String)
  | CounterError (s : String)
  | ClientError (e : ClientError)
  | ConnectionError
  | ChannelError
  | PortError
  | PacketError
  | SequenceError
deriving DecidableEq, Repr

/-- `get_state_change` (ibc/mod.rs): derive the state change of a key from
its presence in the prior and posterior views. -/
def get_state_change (c : Ctx) (k : Key) : StateChange :=
  if c.has_key_pre k then
    if c.has_key_post k then .Updated else .Deleted
  else if c.has_key_post k then .Created
  else .NotExists

/-- `read_counter_pre` (ibc/mod.rs): read the prior counter value from
storage, failing with a counter error when the key is absent or malformed. -/
def read_counter_pre (c : Ctx) (k : Key) : Except IbcError Nat :=
  match c.read_pre k with
  | some v =>
    match decodeNat v with
    | some n => .ok n
    | none => .error (.CounterError "Decoding the client counter failed")
  | none => .error (.CounterError "The client counter does not exist")

/-- `read_counter` (ibc/mod.rs): read the posterior counter; a decoding
failure yields `u64::MIN` (0), an absent counter is `unreachable!()` - a
panic, modelled by `none`. -/
def read_counter (c : Ctx) (k : Key) : Option Nat :=
  match c.read_post k with
  | some v => some ((decodeNat v).getD 0)
  | none => none

/-- The posterior client state abstraction of the external `ibc` crate
(`AnyClientState`): only its client type and latest height (a revision
number / revision height pair) are observed by the VP. -/
structure AnyClientState where
  clientType : String
  latestHeight : Nat × Nat
deriving DecidableEq, Repr

/-- The consensus state abstraction of the external `ibc` crate: only its
client type is observed. -/
structure AnyConsensusState where
  clientType : String
deriving DecidableEq, Repr

/-- `ClientUpdateData` (types/ibc.rs, modelled from the spec): a client id
and a list of headers; headers are opaque tokens. -/
structure ClientUpdateData where
  clientId : String
  headers : List Nat
deriving DecidableEq, Repr

/-- `ClientUpgradeData` (types/ibc.rs, modelled from the spec): a client id
and two commitment proofs; proofs are opaque tokens. -/
structure ClientUpgradeData where
  clientId : String
  proofClient : Nat
  proofConsensus : Nat
deriving DecidableEq, Repr

/-- The external decoding and verification primitives the client VP
depends on (borsh / protobuf decoders and the `ibc` crate client
machinery), bundled as parameters: each `none` models the corresponding
Rust failure. -/
structure IbcExternal where
  decodeString : List Nat → Option String
  clientTypeFromStr : String → Option String
  decodeClientState : List Nat → Option AnyClientState
  decodeConsensusState : List Nat → Option AnyConsensusState
  decodeUpdateData : List Nat → Option ClientUpdateData
  decodeUpgradeData : List Nat → Option ClientUpgradeData
  checkHeader : String → AnyClientState → Nat → Option (AnyClientState × AnyConsensusState)
  verifyUpgrade : String → AnyClientState → AnyConsensusState → Nat → Nat →
    Option (AnyClientState × AnyConsensusState)

/-- Modelled from the spec: the `clients/{id}/clientType` key. -/
def clientTypeKey (cid : String) : Key := ibcKey ["clients", cid, "clientType"]

/-- Modelled from the spec: the `clients/{id}/clientState` key. -/
def clientStateKey (cid : String) : Key := ibcKey ["clients", cid, "clientState"]

/-- Modelled from the spec: the `clients/{id}/consensusStates/{epoch}-{height}`
key. -/
def consensusStateKey (cid : String) (h : Nat × Nat) : Key :=
  ibcKey ["clients", cid, "consensusStates", toString h.1 ++ "-" ++ toString h.2]

/-- `ClientReader::client_type` for the IBC VP (ibc/client.rs): posterior
read of the client type key, decoded as a string and then parsed as a
client type; any failure yields `None`. -/
def client_type (ext : IbcExternal) (c : Ctx) (cid : String) : Option String :=
  match c.read_post (clientTypeKey cid) with
  | some v => (ext.decodeString v).bind ext.clientTypeFromStr
  | none => none

/-- `ClientReader::client_state` for the IBC VP (ibc/client.rs): posterior
read of the client state key. -/
def client_state_post (ext : IbcExternal) (c : Ctx) (cid : String) :
    Option AnyClientState :=
  (c.read_post (clientStateKey cid)).bind ext.decodeClientState

/-- `ClientReader::consensus_state` for the IBC VP (ibc/client.rs):
posterior read of the consensus state key at the given height. -/
def consensus_state_post (ext : IbcExternal) (c : Ctx) (cid : String)
    (h : Nat × Nat) : Option AnyConsensusState :=
  (c.read_post (consensusStateKey cid h)).bind ext.decodeConsensusState

/-- The message string of an IBC error, as `e.to_string()` would render it
(abbreviated). -/
def IbcError.message : IbcError → String
  | .KeyError s => s
  | .CounterError s => s
  | _ => "error"

/-- `client_counter_pre` (ibc/client.rs): the prior client counter, its
counter error re-wrapped as `InvalidClient`. -/
def client_counter_pre (c : Ctx) : Except ClientError Nat :=
  match read_counter_pre c ibcClientCounterKey with
  | .ok n => .ok n
  | .error e => .error (.InvalidClient e.message)

/-- `ClientReader::client_counter` (ibc/client.rs): the posterior client
counter; `none` is the `unreachable!()` panic on an absent counter. -/
def client_counter_post (c : Ctx) : Option Nat :=
  read_counter c ibcClientCounterKey

/-- `get_client_state_change` (ibc/client.rs): the state change of the
full client state path. -/
def get_client_state_change (c : Ctx) (cid : String) : StateChange :=
  get_state_change c (clientStateKey cid)

/-- Modelled abstraction of `ClientId::from_str` of the external `ibc`
crate: identifier validation, rejecting the empty string. -/
def clientIdFromStr (s : String) : Option String :=
  if s.isEmpty then none else some s

/-- `get_client_id` (ibc/client.rs): the client ID is the third segment of
the key (after `#IBC/clients`). -/
def get_client_id (k : Key) : Except ClientError String :=
  match k.segments.get? 2 with
  | some seg =>
    match clientIdFromStr seg.raw with
    | some cid => .ok cid
    | none => .error (.InvalidKey "invalid client ID")
  | none => .error (.InvalidKey "The key does not have a client ID")

/-- `validate_created_client` (ibc/client.rs): the posterior state must
contain the client type, the client state, and a consensus state at the
client state's latest height, and all three must agree on the client
type; each missing component and a type mismatch yield `InvalidClient`. -/
def validate_created_client (ext : IbcExternal) (c : Ctx) (cid : String) :
    Except ClientError Unit :=
  match client_type ext c cid with
  | none => .error (.InvalidClient "The client type does not exist")
  | some ct =>
    match client_state_post ext c cid with
    | none => .error (.InvalidClient "The client state does not exist")
    | some cs =>
      match consensus_state_post ext c cid cs.latestHeight with
      | none => .error (.InvalidClient "The consensus state does not exist")
      | some cons =>
        if ct = cs.clientType ∧ ct = cons.clientType then .ok ()
        else .error (.InvalidClient "The client type is mismatched")

/-- `client_state_pre` (ibc/client.rs): the prior client state, failing
with `InvalidClient` when absent or undecodable. -/
def client_state_pre (ext : IbcExternal) (c : Ctx) (cid : String) :
    Except ClientError AnyClientState :=
  match c.read_pre (clientStateKey cid) with
  | some v =>
    match ext.decodeClientState v with
    | some cs => .ok cs
    | none => .error (.InvalidClient "Decoding the client state failed")
  | none => .error (.InvalidClient "The prior client state does not exist")

/-- `consensus_state_pre` (ibc/client.rs): the prior consensus state at a
height, failing with `InvalidClient` when absent or undecodable. -/
def consensus_state_pre (ext : IbcExternal) (c : Ctx) (cid : String)
    (h : Nat × Nat) : Except ClientError AnyConsensusState :=
  match c.read_pre (consensusStateKey cid h) with
  | some v =>
    match ext.decodeConsensusState v with
    | some cons => .ok cons
    | none => .error (.InvalidClient "Decoding the consensus state failed")
  | none => .error (.InvalidClient "The prior consensus state does not exist")

/-- The `try_fold` of `verify_update_client`: fold the headers from the
prior pair, threading only the client state, failing on the first invalid
header. -/
def foldHeaders (check : AnyClientState → Nat → Option (AnyClientState × AnyConsensusState)) :
    AnyClientState × AnyConsensusState → List Nat →
    Option (AnyClientState × AnyConsensusState)
  | acc, [] => some acc
  | acc, h :: rest =>
    match check acc.1 h with
    | none => none
    | some acc2 => foldHeaders check acc2 rest

/-- `verify_update_client` (ibc/client.rs): check the tx-data client id
against the key's, require posterior client and consensus states, fold
the headers from the prior states and require equality with the stored
posterior. -/
def verify_update_client (ext : IbcExternal) (c : Ctx) (cid : String)
    (data : ClientUpdateData) : Except ClientError Unit :=
  if data.clientId ≠ cid then
    .error (.InvalidClient "The client ID is mismatched")
  else
    match client_state_post ext c cid with
    | none => .error (.InvalidClient "The client state does not exist")
    | some cs =>
      match consensus_state_post ext c cid cs.latestHeight with
      | none => .error (.InvalidClient "The consensus state does not exist")
      | some cons =>
        match client_state_pre ext c cid with
        | .error e => .error e
        | .ok prevCs =>
          match consensus_state_pre ext c cid prevCs.latestHeight with
          | .error e => .error e
          | .ok prevCons =>
            match foldHeaders (ext.checkHeader cs.clientType) (prevCs, prevCons) data.headers with
            | some nw =>
              if nw.1 = cs ∧ nw.2 = cons then .ok ()
              else .error (.InvalidClient "The updated client state or consensus state is unexpected")
            | none => .error (.InvalidHeader "The header is invalid")

/-- `verify_upgrade_client` (ibc/client.rs): check the tx-data client id,
require posterior states, run the upgrade verifier on the prior client
state and the proofs, and require equality with the stored posterior. -/
def verify_upgrade_client (ext : IbcExternal) (c : Ctx) (cid : String)
    (data : ClientUpgradeData) : Except ClientError Unit :=
  if data.clientId ≠ cid then
    .error (.InvalidClient "The client ID is mismatched")
  else
    match client_state_post ext c cid with
    | none => .error (.InvalidClient "The client state does not exist")
    | some cs =>
      match consensus_state_post ext c cid cs.latestHeight with
      | none => .error (.InvalidClient "The consensus state does not exist")
      | some cons =>
        match client_state_pre ext c cid with
        | .error e => .error e
        | .ok preCs =>
          match ext.verifyUpgrade cs.clientType preCs cons data.proofClient data.proofConsensus with
          | some nw =>
            if nw.1 = cs ∧ nw.2 = cons then .ok ()
            else .error (.InvalidClient "The updated client state or consensus state is unexpected")
          | none => .error (.ProofVerificationFailure "proof verification failed")

/-- `validate_updated_client` (ibc/client.rs): decode the tx data as
`ClientUpdateData` first, falling back to `ClientUpgradeData`; decoding
neither is a tx-data decoding error. -/
def validate_updated_client (ext : IbcExternal) (c : Ctx) (cid : String)
    (txData : List Nat) : Except ClientError Unit :=
  match ext.decodeUpdateData txData with
  | some data => verify_update_client ext c cid data
  | none =>
    match ext.decodeUpgradeData txData with
    | some data => verify_upgrade_client ext c cid data
    | none => .error .DecodingTxData

/-- `validate_client` (ibc/client.rs): dispatch on the state change of the
client state path; only `Created` and `Updated` are valid changes. -/
def validate_client (ext : IbcExternal) (c : Ctx) (cid : String)
    (txData : List Nat) : Except ClientError Unit :=
  match get_client_state_change c cid with
  | .Created => validate_created_client ext c cid
  | .Updated => validate_updated_client ext c cid txData
  | .Deleted => .error (.InvalidStateChange "The state change of the client is invalid")
  | .NotExists => .error (.InvalidStateChange "The state change of the client is invalid")

/-- The per-prefix validators of the connection, channel, port,
capability, sequence, commitment, receipt and ack modules, whose sources
are not provided: abstracted as parameters with their Rust result type
(unit or a typed error). -/
structure SubVps where
  validateConnection : Key → List Nat → Except IbcError Unit
  validateChannel : Key → List Nat → Except IbcError Unit
  validatePort : Key → Except IbcError Unit
  validateCapability : Key → Except IbcError Unit
  validateSequenceSend : Key → List Nat → Except IbcError Unit
  validateSequenceRecv : Key → List Nat → Except IbcError Unit
  validateSequenceAck : Key → List Nat → Except IbcError Unit
  validateCommitment : Key → List Nat → Except IbcError Unit
  validateReceipt : Key → Except IbcError Unit
  validateAck : Key → Except IbcError Unit

/-- The client counter check of `validate_tx` (ibc/mod.rs lines 115-120):
a prior counter not strictly below the posterior counter is a counter
error; the outer `none` is the panic of `client_counter` on an absent
posterior counter. -/
def clientCounterStep (c : Ctx) : Option (Except IbcError Unit) :=
  match client_counter_pre c with
  | .error e => some (.error (.ClientError e))
  | .ok pre =>
    match client_counter_post c with
    | none => none
    | some post =>
      if post ≤ pre then some (.error (.CounterError "The client counter is invalid"))
      else some (.ok ())

/-- The key loop of `validate_tx` (ibc/mod.rs): skip non-IBC keys,
dispatch each IBC key on its prefix, deduplicate client ids through the
`clients` accumulator, and reject unknown prefixes with a `KeyError`; an
exhausted loop accepts with `Ok(true)`. -/
def validateTxAux (ext : IbcExternal) (sub : SubVps) (c : Ctx) (txData : List Nat) :
    List String → List Key → Option (Except IbcError Bool)
  | _, [] => some (.ok true)
  | clients, k :: rest =>
    if k.is_ibc_key then
      match ibcPrefixOf k with
      | .Client =>
        if k.is_ibc_client_counter then
          match clientCounterStep c with
          | none => none
          | some (.error e) => some (.error e)
          | some (.ok _) => validateTxAux ext sub c txData clients rest
        else
          match get_client_id k with
          | .error e => some (.error (.ClientError e))
          | .ok cid =>
            if cid ∈ clients then validateTxAux ext sub c txData clients rest
            else
              match validate_client ext c cid txData with
              | .error e => some (.error (.ClientError e))
              | .ok _ => validateTxAux ext sub c txData (cid :: clients) rest
      | .Connection =>
        match sub.validateConnection k txData with
        | .error e => some (.error e)
        | .ok _ => validateTxAux ext sub c txData clients rest
      | .Channel =>
        match sub.validateChannel k txData with
        | .error e => some (.error e)
        | .ok _ => validateTxAux ext sub c txData clients rest
      | .Port =>
        match sub.validatePort k with
        | .error e => some (.error e)
        | .ok _ => validateTxAux ext sub c txData clients rest
      | .Capability =>
        match sub.validateCapability k with
        | .error e => some (.error e)
        | .ok _ => validateTxAux ext sub c txData clients rest
      | .SeqSend =>
        match sub.validateSequenceSend k txData with
        | .error e => some (.error e)
        | .ok _ => validateTxAux ext sub c txData clients rest
      | .SeqRecv =>
        match sub.validateSequenceRecv k txData with
        | .error e => some (.error e)
        | .ok _ => validateTxAux ext sub c txData clients rest
      | .SeqAck =>
        match sub.validateSequenceAck k txData with
        | .error e => some (.error e)
        | .ok _ => validateTxAux ext sub c txData clients rest
      | .Commitment =>
        match sub.validateCommitment k txData with
        | .error e => some (.error e)
        | .ok _ => validateTxAux ext sub c txData clients rest
      | .Receipt =>
        match sub.validateReceipt k with
        | .error e => some (.error e)
        | .ok _ => validateTxAux ext sub c txData clients rest
      | .Ack =>
        match sub.validateAck k with
        | .error e => some (.error e)
        | .ok _ => validateTxAux ext sub c txData clients rest
      | .Unknown =>
        some (.error (.KeyError ("Invalid IBC-related key: " ++ Key.raw k)))
    else validateTxAux ext sub c txData clients rest

/-- `Ibc::validate_tx` (ibc/mod.rs): run the key loop with an empty set of
already-validated clients.  The changed-key set is modelled as a list (the
source iterates a `HashSet` in unspecified order). -/
def validate_tx (ext : IbcExternal) (sub : SubVps) (c : Ctx) (txData : List Nat)
    (keysChanged : List Key) : Option (Except IbcError Bool) :=
  validateTxAux ext sub c txData [] keysChanged

/-! ## Derived views and concrete inputs used by the theorems -/

/-- The first surviving pair of an iterator under the write-log overlay of
`txIterLoop`: a `Write` entry substitutes the written value, `Delete` and
`InitAccount` entries drop the pair, no entry keeps the storage value;
also yields the remaining tail. -/
def overlayFirst (wl : WriteLog) :
    List (Key × List Nat) → Option (Key × List Nat × List (Key × List Nat))
  | [] => none
  | p :: rest =>
    match (wl.read p.1).1 with
    | some (.Write w) => some (p.1, w, rest)
    | some .Delete => overlayFirst wl rest
    | some (.InitAccount _ _) => overlayFirst wl rest
    | none => some (p.1, p.2, rest)

/-- An empty write log. -/
def emptyWL : WriteLog := ⟨[], []⟩

/-- A tx state over a given write log with a large gas ceiling and
otherwise empty components. -/
def mkTxState (wl : WriteLog) : TxState :=
  { writeLog := wl, gas := ⟨0, 1000000⟩, verifiers := [], resultBuffer := none,
    memory := [], iterators := [] }

/-- Concrete established address for the verifier-set claim. -/
def c1Addr : Address := .Established 7

/-- Concrete key holding `c1Addr` for the verifier-set claim. -/
def c1Key : Key := ⟨[DbKeySeg.AddressSeg c1Addr, DbKeySeg.StringSeg "balance"]⟩

/-- Storage holding the VP of `c1Addr`, so a write to `c1Key` succeeds. -/
def c1Storage : StorageT := [(Key.validity_predicate c1Addr, [1])]

/-- Concrete key for the tx_read claim. -/
def c3Key : Key := ⟨[DbKeySeg.StringSeg "a"]⟩

/-- Tx state whose write log holds a `Write` entry at `c3Key`. -/
def c3St : TxState := mkTxState ⟨[(c3Key, .Write [5, 6])], []⟩

/-- Concrete iterator keys for the iterator claim. -/
def c4KA : Key := ⟨[DbKeySeg.StringSeg "a"]⟩

/-- Second iterator key. -/
def c4KB : Key := ⟨[DbKeySeg.StringSeg "b"]⟩

/-- Third iterator key. -/
def c4KC : Key := ⟨[DbKeySeg.StringSeg "c"]⟩

/-- Tx state with one registered iterator over three storage pairs, the
write log deleting the first and overwriting the second. -/
def c4St : TxState :=
  { mkTxState ⟨[(c4KA, .Delete), (c4KB, .Write [9])], []⟩ with
    iterators := [[(c4KA, [1]), (c4KB, [2]), (c4KC, [3])]] }

/-- Concrete established address without a VP, for the unknown-address
claim. -/
def c5Addr : Address := .Established 9

/-- Concrete key holding `c5Addr`. -/
def c5Key : Key := ⟨[DbKeySeg.AddressSeg c5Addr]⟩

/-- Tx state for the result-buffer claim: a filled buffer and four bytes
of guest memory. -/
def c8St : TxState := { mkTxState emptyWL with resultBuffer := some [7, 8], memory := [0, 0, 0, 0] }

/-- VP state for the result-buffer claim. -/
def c8Vst : VpState := { gas := ⟨0, 1000000⟩, resultBuffer := some [7, 8], memory := [0, 0, 0, 0] }

/-- VP state for the signature claim: 96 zero bytes of guest memory
holding a 32-byte key image and a 64-byte signature image. -/
def c9Vst : VpState := { gas := ⟨0, 10000⟩, resultBuffer := none, memory := List.replicate 96 0 }

/-- A signature checker accepting everything, standing in for the external
ed25519 primitive in the signature witness. -/
def c9Verify : List Nat → Tx → List Nat → Bool := fun _ _ _ => true

/-- An empty transaction for the signature witness. -/
def c9Tx : Tx := ⟨[], none⟩

/-- External IBC primitives that always fail to decode: a test double for
claims that never reach them. -/
def extUnit : IbcExternal :=
  { decodeString := fun _ => none
    clientTypeFromStr := fun _ => none
    decodeClientState := fun _ => none
    decodeConsensusState := fun _ => none
    decodeUpdateData := fun _ => none
    decodeUpgradeData := fun _ => none
    checkHeader := fun _ _ _ => none
    verifyUpgrade := fun _ _ _ _ _ => none }

/-- Sub-module validators that accept every key: a test double for claims
that do not concern them. -/
def subUnit : SubVps :=
  { validateConnection := fun _ _ => .ok ()
    validateChannel := fun _ _ => .ok ()
    validatePort := fun _ => .ok ()
    validateCapability := fun _ => .ok ()
    validateSequenceSend := fun _ _ => .ok ()
    validateSequenceRecv := fun _ _ => .ok ()
    validateSequenceAck := fun _ _ => .ok ()
    validateCommitment := fun _ _ => .ok ()
    validateReceipt := fun _ => .ok ()
    validateAck := fun _ => .ok () }

/-- Context for the client-counter claim: prior counter 3 in storage,
posterior counter 5 in the write log. -/
def c2Ctx : Ctx := ⟨[(ibcClientCounterKey, [3])], ⟨[(ibcClientCounterKey, .Write [5])], []⟩⟩

/-- External IBC primitives for the created-client claim: bytes `[1]`
decode to the client type string, `[2]` to the client state at height
`(1, 10)`, `[3]` to the consensus state, all of type `mock`. -/
def c6Ext : IbcExternal :=
  { decodeString := fun l => if l = [1] then some "mock" else none
    clientTypeFromStr := fun s => some s
    decodeClientState := fun l => if l = [2] then some ⟨"mock", (1, 10)⟩ else none
    decodeConsensusState := fun l => if l = [3] then some ⟨"mock"⟩ else none
    decodeUpdateData := fun _ => none
    decodeUpgradeData := fun _ => none
    checkHeader := fun _ _ _ => none
    verifyUpgrade := fun _ _ _ _ _ => none }

/-- Context for the created-client claim: empty storage (so the client is
`Created`) and a write log holding the client type, client state and
consensus state of client `c1`. -/
def c6Ctx : Ctx :=
  ⟨[], ⟨[(clientTypeKey "c1", .Write [1]), (clientStateKey "c1", .Write [2]),
         (consensusStateKey "c1" (1, 10), .Write [3])], []⟩⟩

/-- An IBC key with an unknown second segment for the key-error claim. -/
def c7Key : Key := ibcKey ["foo"]

/-- A trivial context for the key-error claim. -/
def c7Ctx : Ctx := ⟨[], emptyWL⟩

/-- Two tx states that agree on everything but the gas meter: the gas
charging steps of the host calls change nothing else. -/
def EqButGas (s t : TxState) : Prop :=
  s.writeLog = t.writeLog ∧ s.verifiers = t.verifiers ∧
  s.resultBuffer = t.resultBuffer ∧ s.memory = t.memory ∧ s.iterators = t.iterators

/-! ## Helper lemmas -/

theorem GasMeter_add_ok {g : GasMeter} {n : Nat} {g2 : GasMeter}
    (h : g.add n = .ok g2) : g2.used = g.used + n := by
  unfold GasMeter.add at h
  split at h
  · injection h with h2
    subst h2
    rfl
  · exact Except.noConfusion h

theorem eqButGas_refl (s : TxState) : EqButGas s s := ⟨rfl, rfl, rfl, rfl, rfl⟩

theorem eqButGas_trans {a b c : TxState} (h1 : EqButGas a b) (h2 : EqButGas b c) :
    EqButGas a c :=
  ⟨h1.1.trans h2.1, h1.2.1.trans h2.2.1, h1.2.2.1.trans h2.2.2.1,
   h1.2.2.2.1.trans h2.2.2.2.1, h1.2.2.2.2.trans h2.2.2.2.2⟩

theorem addGasT_eqButGas (st : TxState) (n : Nat) : EqButGas (addGasT st n).1 st := by
  unfold addGasT; cases st.gas.add n <;> exact ⟨rfl, rfl, rfl, rfl, rfl⟩

theorem addGasT_error_eq {st : TxState} {n : Nat} {e : TxRuntimeError}
    (h : (addGasT st n).2 = .error e) : e = .OutOfGas := by
  unfold addGasT at h
  cases hg : st.gas.add n with
  | error u => rw [hg] at h; exact (Except.error.inj h).symm
  | ok g2 => rw [hg] at h; exact Except.noConfusion h

theorem addGasV_memory (st : VpState) (n : Nat) :
    (addGasV st n).1.memory = st.memory := by
  unfold addGasV; cases st.gas.add n <;> rfl

theorem addGasV_resultBuffer (st : VpState) (n : Nat) :
    (addGasV st n).1.resultBuffer = st.resultBuffer := by
  unfold addGasV; cases st.gas.add n <;> rfl

theorem addGasV_ok_used {st : VpState} {n : Nat}
    (h : (addGasV st n).2 = .ok ()) : (addGasV st n).1.gas.used = st.gas.used + n := by
  unfold addGasV at h ⊢
  cases hg : st.gas.add n with
  | error u =>
    rw [hg] at h
    exact Except.noConfusion h
  | ok g2 => exact GasMeter_add_ok hg

theorem checkAddrLoop_eqButGas (storage : StorageT) :
    ∀ (l : List Address) (st : TxState), EqButGas (checkAddrLoop storage st l).1 st := by
  intro l
  induction l with
  | nil => intro st; exact eqButGas_refl st
  | cons a rest ih =>
    intro st
    simp only [checkAddrLoop]
    split
    · exact ih st
    · split
      · exact addGasT_eqButGas ..
      · split
        · split
          · exact eqButGas_trans (addGasT_eqButGas ..) (addGasT_eqButGas ..)
          · split
            · exact eqButGas_trans (ih _)
                (eqButGas_trans (addGasT_eqButGas ..) (addGasT_eqButGas ..))
            · exact eqButGas_trans (addGasT_eqButGas ..) (addGasT_eqButGas ..)
        · exact eqButGas_trans (ih _) (addGasT_eqButGas ..)

/-! ## Claim C1 -/

/-- Claim C1 counterexample: `tx_write` succeeds on a key containing the
established (neither implicit nor internal) address `c1Addr` whose VP is
present in storage, yet the verifier set stays empty afterwards - the
address is not added to the verifier set, contradicting the claim. -/
theorem c1_tx_write_verifier_cex :
    (tx_write c1Storage (mkTxState emptyWL) c1Key [42]).2 = .ok () ∧
    c1Addr ∈ c1Key.find_addresses ∧
    c1Addr.isImplicitOrInternal = false ∧
    (tx_write c1Storage (mkTxState emptyWL) c1Key [42]).1.verifiers = [] := by
  refine ⟨by decide, by decide, by decide, by decide⟩

/-- Claim C1 (amended): `tx_write` computes `key.find_addresses()` only
for the address-existence check and never modifies the verifier set;
addresses enter the verifier set only through `tx_insert_verifier`, which
adds exactly the given address. -/
theorem c1_tx_write_verifiers_unchanged (storage : StorageT) (st : TxState)
    (k : Key) (v : List Nat) (st2 : TxState) (a : Address) :
    (tx_write storage st k v).1.verifiers = st.verifiers ∧
    ((tx_insert_verifier st2 a).2 = .ok () →
      a ∈ (tx_insert_verifier st2 a).1.verifiers) := by
  constructor
  · simp only [tx_write]
    split
    · exact (addGasT_eqButGas ..).2.1
    · split
      · exact (eqButGas_trans (addGasT_eqButGas ..) (addGasT_eqButGas ..)).2.1
      · split
        · exact (eqButGas_trans (checkAddrLoop_eqButGas ..)
            (eqButGas_trans (addGasT_eqButGas ..) (addGasT_eqButGas ..))).2.1
        · split
          · exact (eqButGas_trans (checkAddrLoop_eqButGas ..)
              (eqButGas_trans (addGasT_eqButGas ..) (addGasT_eqButGas ..))).2.1
          · exact Eq.trans ((addGasT_eqButGas ..).2.1)
              ((eqButGas_trans (checkAddrLoop_eqButGas ..)
                (eqButGas_trans (addGasT_eqButGas ..) (addGasT_eqButGas ..))).2.1)
  · intro h
    simp only [tx_insert_verifier] at h ⊢
    split
    · rename_i e heq
      rw [heq] at h
      exact absurd h (by simp)
    · rw [(addGasT_eqButGas ..).2.1]
      unfold insertAddr
      split
      · assumption
      · exact List.mem_cons_self ..

/-- Claim C1 witness: concrete run of the amended statement - a write
leaves the verifier set unchanged and an insertion adds the address. -/
theorem c1_witness :
    (tx_write c1Storage (mkTxState emptyWL) c1Key [42]).1.verifiers =
      (mkTxState emptyWL).verifiers ∧
    ((tx_insert_verifier (mkTxState emptyWL) c1Addr).2 = .ok () ∧
      c1Addr ∈ (tx_insert_verifier (mkTxState emptyWL) c1Addr).1.verifiers) :=
  ⟨(c1_tx_write_verifiers_unchanged c1Storage (mkTxState emptyWL) c1Key [42]
      (mkTxState emptyWL) c1Addr).1,
   by decide,
   (c1_tx_write_verifiers_unchanged c1Storage (mkTxState emptyWL) c1Key [42]
      (mkTxState emptyWL) c1Addr).2 (by decide)⟩

/-! ## Claim C10 -/

theorem validateTxAux_ok_true (ext : IbcExternal) (sub : SubVps) (c : Ctx)
    (td : List Nat) :
    ∀ (keys : List Key) (clients : List String) (r : Bool),
      validateTxAux ext sub c td clients keys = some (.ok r) → r = true := by
  intro keys
  induction keys with
  | nil =>
    intro clients r h
    simp only [validateTxAux] at h
    simp at h
    exact h
  | cons k rest ih =>
    intro clients r h
    simp only [validateTxAux] at h
    split at h
    · split at h
      · split at h
        · split at h
          · exact absurd h (by simp)
          · exact absurd h (by simp)
          · exact ih _ _ h
        · split at h
          · exact absurd h (by simp)
          · split at h
            · exact ih _ _ h
            · split at h
              · exact absurd h (by simp)
              · exact ih _ _ h
      · split at h
        · exact absurd h (by simp)
        · exact ih _ _ h
      · split at h
        · exact absurd h (by simp)
        · exact ih _ _ h
      · split at h
        · exact absurd h (by simp)
        · exact ih _ _ h
      · split at h
        · exact absurd h (by simp)
        · exact ih _ _ h
      · split at h
        · exact absurd h (by simp)
        · exact ih _ _ h
      · split at h
        · exact absurd h (by simp)
        · exact ih _ _ h
      · split at h
        · exact absurd h (by simp)
        · exact ih _ _ h
      · split at h
        · exact absurd h (by simp)
        · exact ih _ _ h
      · split at h
        · exact absurd h (by simp)
        · exact ih _ _ h
      · split at h
        · exact absurd h (by simp)
        · exact ih _ _ h
      · exact absurd h (by simp)
    · exact ih _ _ h

/-- Claim C10: for every input, the IBC VP key loop never produces
`Ok(false)`: `validate_tx` either accepts with `Ok(true)`, rejects with a
typed error, or hits the counter panic; rejection is never expressed
through the boolean result. -/
theorem c10_validate_tx_never_ok_false (ext : IbcExternal) (sub : SubVps) (c : Ctx)
    (td : List Nat) (keys : List Key) :
    validate_tx ext sub c td keys = none ∨
    validate_tx ext sub c td keys = some (.ok true) ∨
    ∃ e, validate_tx ext sub c td keys = some (.error e) := by
  rcases hv : validate_tx ext sub c td keys with - | r
  · exact .inl rfl
  · rcases r with e | b
    · exact .inr (.inr ⟨e, rfl⟩)
    · have hb : b = true := validateTxAux_ok_true ext sub c td keys [] b hv
      subst hb
      exact .inr (.inl rfl)

/-! ## Claim C3 -/

/-- Claim C3: a successful `tx_read` gives the write log precedence over
storage: a `Write` entry returns the written value's length with the value
in the result buffer, a `Delete` entry returns -1, an `InitAccount` entry
returns the new VP, and only with no write log entry does the call fall
through to storage, returning the stored value's length (value in the
result buffer) or -1 when the key is absent. -/
theorem c3_tx_read_writelog_precedence (storage : StorageT) (st : TxState)
    (k : Key) (r : Int) (h : (tx_read storage st k).2 = .ok r) :
    (∀ v, (st.writeLog.read k).1 = some (.Write v) →
      r = Int.ofNat v.length ∧ (tx_read storage st k).1.resultBuffer = some v) ∧
    ((st.writeLog.read k).1 = some .Delete → r = -1) ∧
    (∀ vp a2, (st.writeLog.read k).1 = some (.InitAccount vp a2) →
      r = Int.ofNat vp.length ∧ (tx_read storage st k).1.resultBuffer = some vp) ∧
    ((st.writeLog.read k).1 = none →
      (∀ v, (storageRead storage k).1 = some v →
        r = Int.ofNat v.length ∧ (tx_read storage st k).1.resultBuffer = some v) ∧
      ((storageRead storage k).1 = none → r = -1)) := by
  have hwl : (addGasT st (keyReadGas k)).1.writeLog = st.writeLog :=
    (addGasT_eqButGas ..).1
  simp only [tx_read, hwl] at h ⊢
  split at h
  · exact Except.noConfusion h
  · split at h
    · exact Except.noConfusion h
    · split at h
      · rename_i value heq
        simp only [heq]
        have hr : r = Int.ofNat value.length := (Except.ok.inj h).symm
        refine ⟨fun v hv => ?_, fun hv => by simp at hv, fun vp a2 hv => by simp at hv,
          fun hv => by simp at hv⟩
        have hvv : value = v := StorageModification.Write.inj (Option.some.inj hv)
        subst hvv
        exact ⟨hr, rfl⟩
      · rename_i heq
        simp only [heq]
        have hr : r = -1 := (Except.ok.inj h).symm
        exact ⟨fun v hv => by simp at hv, fun _ => hr, fun vp a2 hv => by simp at hv,
          fun hv => by simp at hv⟩
      · rename_i vp a2 heq
        simp only [heq]
        have hr : r = Int.ofNat vp.length := (Except.ok.inj h).symm
        refine ⟨fun v hv => by simp at hv, fun hv => by simp at hv,
          fun vp2 a3 hv => ?_, fun hv => by simp at hv⟩
        have hvv : vp = vp2 := (StorageModification.InitAccount.inj (Option.some.inj hv)).1
        subst hvv
        exact ⟨hr, rfl⟩
      · rename_i heq
        simp only [heq]
        split at h
        · exact Except.noConfusion h
        · split at h
          · rename_i v heq2
            simp only [heq2]
            have hr : r = Int.ofNat v.length := (Except.ok.inj h).symm
            refine ⟨fun v2 hv => by simp at hv, fun hv => by simp at hv,
              fun vp2 a3 hv => by simp at hv,
              fun _ => ⟨fun v2 hv2 => ?_, fun hv2 => by simp at hv2⟩⟩
            have hvv : v = v2 := Option.some.inj hv2
            subst hvv
            exact ⟨hr, rfl⟩
          · rename_i heq2
            simp only [heq2]
            have hr : r = -1 := (Except.ok.inj h).symm
            exact ⟨fun v hv => by simp at hv, fun hv => by simp at hv,
              fun vp2 a3 hv => by simp at hv,
              fun _ => ⟨fun v2 hv2 => by simp at hv2, fun _ => hr⟩⟩

/-- Claim C3 witness: a concrete successful read of a key with a `Write`
entry in the write log returns its length and buffers the value. -/
theorem c3_witness :
    (tx_read [] c3St c3Key).2 = .ok 2 ∧
    (tx_read [] c3St c3Key).1.resultBuffer = some [5, 6] :=
  ⟨by decide,
   ((c3_tx_read_writelog_precedence [] c3St c3Key 2 (by decide)).1 [5, 6] (by decide)).2⟩

/-! ## Claim C8 -/

theorem memWriteBytes_fit {mem : List Nat} {ptr : Nat} {v : List Nat}
    (h : ptr + v.length ≤ mem.length) :
    memWriteBytes mem ptr v =
      some (mem.take ptr ++ v ++ mem.drop (ptr + v.length), v.length) := by
  unfold memWriteBytes
  rw [if_pos h]

/-- Claim C8: with a filled result buffer, `tx_result_buffer` and
`vp_result_buffer` take the buffered value - emptying the slot - and write
it to guest memory at the given pointer; with an empty buffer the
unguarded `take().unwrap()` is a panic (modelled as `none`), not a
recoverable host-call error. -/
theorem c8_result_buffer_protocol (st : TxState) (vst : VpState) (ptr : Nat)
    (v : List Nat) :
    (st.resultBuffer = some v → ptr + v.length ≤ st.memory.length →
      ∃ p, tx_result_buffer st ptr = some p ∧ p.1.resultBuffer = none ∧
        p.1.memory = st.memory.take ptr ++ v ++ st.memory.drop (ptr + v.length)) ∧
    (st.resultBuffer = none → tx_result_buffer st ptr = none) ∧
    (vst.resultBuffer = some v → ptr + v.length ≤ vst.memory.length →
      ∃ q, vp_result_buffer vst ptr = some q ∧ q.1.resultBuffer = none ∧
        q.1.memory = vst.memory.take ptr ++ v ++ vst.memory.drop (ptr + v.length)) ∧
    (vst.resultBuffer = none → vp_result_buffer vst ptr = none) := by
  refine ⟨fun hb hfit => ?_, fun hb => ?_, fun hb hfit => ?_, fun hb => ?_⟩
  · simp only [tx_result_buffer, hb, memWriteBytes_fit hfit]
    exact ⟨_, rfl, (addGasT_eqButGas ..).2.2.1, (addGasT_eqButGas ..).2.2.2.1⟩
  · simp only [tx_result_buffer, hb]
  · simp only [vp_result_buffer, hb, memWriteBytes_fit hfit]
    exact ⟨_, rfl, addGasV_resultBuffer .., addGasV_memory ..⟩
  · simp only [vp_result_buffer, hb]

/-- Claim C8 witness: a concrete filled buffer is flushed into memory and
emptied on both the tx and the vp side. -/
theorem c8_witness :
    c8St.resultBuffer = some [7, 8] ∧ c8Vst.resultBuffer = some [7, 8] ∧
    (∃ p, tx_result_buffer c8St 1 = some p ∧ p.1.resultBuffer = none ∧
      p.1.memory = c8St.memory.take 1 ++ [7, 8] ++ c8St.memory.drop (1 + [7, 8].length)) ∧
    (∃ q, vp_result_buffer c8Vst 1 = some q ∧ q.1.resultBuffer = none ∧
      q.1.memory = c8Vst.memory.take 1 ++ [7, 8] ++ c8Vst.memory.drop (1 + [7, 8].length)) := by
  refine ⟨by decide, by decide, ?_, ?_⟩
  · exact (c8_result_buffer_protocol c8St c8Vst 1 [7, 8]).1 (by decide) (by decide)
  · exact (c8_result_buffer_protocol c8St c8Vst 1 [7, 8]).2.2.1 (by decide) (by decide)

/-! ## Claim C9 -/

theorem memReadBytes_len {mem : List Nat} {ptr len : Nat} {q : List Nat × Nat}
    (h : memReadBytes mem ptr len = some q) : q.2 = len := by
  unfold memReadBytes at h
  split at h
  · have h2 := Option.some.inj h
    subst h2
    rfl
  · exact Option.noConfusion h

/-- Claim C9: a successful `vp_verify_tx_signature` charges the VP gas
meter exactly `VERIFY_TX_SIG_GAS_COST` (1000) for the verification step on
top of the per-byte costs of reading the public key and the signature from
guest memory, and returns 1 when the tx is signed by the key producing the
signature and 0 otherwise. -/
theorem c9_vp_verify_tx_signature_gas (verify : List Nat → Tx → List Nat → Bool)
    (tx : Tx) (st0 : VpState) (pkPtr pkLen sigPtr sigLen : Nat) (r : Int)
    (h : (vp_verify_tx_signature verify tx st0 pkPtr pkLen sigPtr sigLen).2 = .ok r) :
    (vp_verify_tx_signature verify tx st0 pkPtr pkLen sigPtr sigLen).1.gas.used =
      st0.gas.used + pkLen + sigLen + VERIFY_TX_SIG_GAS_COST ∧
    ∃ pkR sigR pk sg,
      memReadBytes st0.memory pkPtr pkLen = some pkR ∧
      decodePublicKey pkR.1 = some pk ∧
      memReadBytes st0.memory sigPtr sigLen = some sigR ∧
      decodeSignature sigR.1 = some sg ∧
      r = (if verify pk tx sg then 1 else 0) := by
  simp only [vp_verify_tx_signature, addGasV_memory] at h ⊢
  split at h
  · exact Except.noConfusion h
  · rename_i pkR heq1
    split at h
    · exact Except.noConfusion h
    · rename_i u1 hg1
      split at h
      · exact Except.noConfusion h
      · rename_i pk heq2
        split at h
        · exact Except.noConfusion h
        · rename_i sigR heq3
          split at h
          · exact Except.noConfusion h
          · rename_i u2 hg2
            split at h
            · exact Except.noConfusion h
            · rename_i sg heq4
              split at h
              · exact Except.noConfusion h
              · rename_i u3 hg3
                have hr : r = (if verify pk tx sg then 1 else 0) :=
                  (Except.ok.inj h).symm
                constructor
                · rw [addGasV_ok_used hg3, addGasV_ok_used hg2, addGasV_ok_used hg1,
                    memReadBytes_len heq1, memReadBytes_len heq3]
                · exact ⟨pkR, sigR, pk, sg, heq1, heq2, heq3, heq4, hr⟩

/-- Claim C9 witness: a concrete successful signature verification charges
32 + 64 + 1000 gas units and returns 1. -/
theorem c9_witness :
    (vp_verify_tx_signature c9Verify c9Tx c9Vst 0 32 32 64).2 = .ok 1 ∧
    (vp_verify_tx_signature c9Verify c9Tx c9Vst 0 32 32 64).1.gas.used =
      c9Vst.gas.used + 32 + 64 + VERIFY_TX_SIG_GAS_COST :=
  ⟨by decide,
   (c9_vp_verify_tx_signature_gas c9Verify c9Tx c9Vst 0 32 32 64 1 (by decide)).1⟩

/-! ## Claims C2 and C7: the validate_tx key loop -/

theorem validateTxAux_mem_not_true (ext : IbcExternal) (sub : SubVps) (c : Ctx)
    (td : List Nat) (k0 : Key)
    (hfail : ∀ (clients : List String) (rest : List Key),
      validateTxAux ext sub c td clients (k0 :: rest) ≠ some (.ok true)) :
    ∀ (keys : List Key) (clients : List String), k0 ∈ keys →
      validateTxAux ext sub c td clients keys ≠ some (.ok true) := by
  intro keys
  induction keys with
  | nil =>
    intro clients hmem
    simp at hmem
  | cons k rest ih =>
    intro clients hmem h
    rcases List.mem_cons.mp hmem with hk | hk
    · exact hfail clients rest (hk.symm ▸ h)
    · revert h
      intro h
      simp only [validateTxAux] at h
      split at h
      · split at h
        · split at h
          · split at h
            · exact absurd h (by simp)
            · exact absurd h (by simp)
            · exact ih _ hk h
          · split at h
            · exact absurd h (by simp)
            · split at h
              · exact ih _ hk h
              · split at h
                · exact absurd h (by simp)
                · exact ih _ hk h
        · split at h
          · exact absurd h (by simp)
          · exact ih _ hk h
        · split at h
          · exact absurd h (by simp)
          · exact ih _ hk h
        · split at h
          · exact absurd h (by simp)
          · exact ih _ hk h
        · split at h
          · exact absurd h (by simp)
          · exact ih _ hk h
        · split at h
          · exact absurd h (by simp)
          · exact ih _ hk h
        · split at h
          · exact absurd h (by simp)
          · exact ih _ hk h
        · split at h
          · exact absurd h (by simp)
          · exact ih _ hk h
        · split at h
          · exact absurd h (by simp)
          · exact ih _ hk h
        · split at h
          · exact absurd h (by simp)
          · exact ih _ hk h
        · split at h
          · exact absurd h (by simp)
          · exact ih _ hk h
        · exact absurd h (by simp)
      · exact ih _ hk h

/-- Claim C2: for a change to the IBC client-counter key, `validate_tx`
rejects with a counter error unless the posterior counter strictly
exceeds the prior one - the run over just the counter key accepts
exactly when `pre < post` and otherwise (equality included) fails with
`CounterError`, and any changed-key set containing the counter key cannot
be accepted when `post ≤ pre`. -/
theorem c2_client_counter_strictly_increasing (ext : IbcExternal) (sub : SubVps)
    (c : Ctx) (td : List Nat) (vpre vpost : List Nat) (pre post : Nat)
    (hpre : c.read_pre ibcClientCounterKey = some vpre)
    (hdpre : decodeNat vpre = some pre)
    (hpost : c.read_post ibcClientCounterKey = some vpost)
    (hdpost : decodeNat vpost = some post) :
    (validate_tx ext sub c td [ibcClientCounterKey] =
      if pre < post then some (.ok true)
      else some (.error (.CounterError "The client counter is invalid"))) ∧
    (∀ keys : List Key, ibcClientCounterKey ∈ keys → post ≤ pre →
      validate_tx ext sub c td keys ≠ some (.ok true)) := by
  have h1 : Key.is_ibc_key ibcClientCounterKey = true := by decide
  have h2 : ibcPrefixOf ibcClientCounterKey = .Client := by decide
  have h3 : Key.is_ibc_client_counter ibcClientCounterKey = true := by decide
  have hstep : clientCounterStep c =
      if post ≤ pre then some (.error (.CounterError "The client counter is invalid"))
      else some (.ok ()) := by
    simp only [clientCounterStep, client_counter_pre, read_counter_pre,
      client_counter_post, read_counter, hpre, hdpre, hpost, hdpost, Option.getD_some]
  constructor
  · simp only [validate_tx, validateTxAux, h1, h2, h3, hstep, if_true]
    by_cases hle : post ≤ pre
    · rw [if_pos hle, if_neg (by omega)]
    · rw [if_neg hle, if_pos (by omega)]
  · intro keys hmem hle
    have hstepErr : clientCounterStep c =
        some (.error (.CounterError "The client counter is invalid")) := by
      rw [hstep, if_pos hle]
    refine validateTxAux_mem_not_true ext sub c td ibcClientCounterKey ?_ keys [] hmem
    intro clients rest h
    simp [validateTxAux, h1, h2, h3, hstepErr] at h

/-- Claim C2 witness: prior counter 3 and posterior counter 5 are accepted
over the singleton counter-key change set. -/
theorem c2_witness :
    c2Ctx.read_pre ibcClientCounterKey = some [3] ∧
    c2Ctx.read_post ibcClientCounterKey = some [5] ∧
    validate_tx extUnit subUnit c2Ctx [] [ibcClientCounterKey] = some (.ok true) := by
  refine ⟨by decide, by decide, ?_⟩
  have hc := (c2_client_counter_strictly_increasing extUnit subUnit c2Ctx [] [3] [5] 3 5
    (by decide) (by decide) (by decide) (by decide)).1
  rw [hc]
  decide

/-- Claim C7: a changed key whose first segment is the reserved `#IBC`
address but whose second segment is missing or not one of the eleven known
IBC prefixes makes `validate_tx` return a terminal `KeyError`: a run over
just that key yields the `KeyError`, and no changed-key set containing
such a key can be accepted. -/
theorem c7_unknown_ibc_prefix_key_error (ext : IbcExternal) (sub : SubVps)
    (c : Ctx) (td : List Nat) (k : Key) (keys : List Key)
    (h1 : k.is_ibc_key = true)
    (h2 : k.segments.get? 1 = none ∨ ∃ seg, k.segments.get? 1 = some seg ∧
      seg.raw ∉ (["clients", "connections", "channelEnds", "ports", "capabilities",
        "nextSequenceSend", "nextSequenceRecv", "nextSequenceAck", "commitments",
        "receipts", "acks"] : List String)) :
    validate_tx ext sub c td [k] =
      some (.error (.KeyError ("Invalid IBC-related key: " ++ Key.raw k))) ∧
    (k ∈ keys → validate_tx ext sub c td keys ≠ some (.ok true)) := by
  have hunk : ibcPrefixOf k = .Unknown := by
    unfold ibcPrefixOf
    rcases h2 with h2 | ⟨seg, hseg, hmem⟩
    · rw [h2]
    · rw [hseg]
      simp only [List.mem_cons, List.not_mem_nil, or_false, not_or] at hmem
      simp [hmem.1, hmem.2.1, hmem.2.2.1, hmem.2.2.2.1, hmem.2.2.2.2.1,
        hmem.2.2.2.2.2.1, hmem.2.2.2.2.2.2.1, hmem.2.2.2.2.2.2.2.1,
        hmem.2.2.2.2.2.2.2.2.1, hmem.2.2.2.2.2.2.2.2.2.1, hmem.2.2.2.2.2.2.2.2.2.2]
  constructor
  · simp only [validate_tx, validateTxAux, h1, hunk, if_true]
  · intro hmem
    refine validateTxAux_mem_not_true ext sub c td k ?_ keys [] hmem
    intro clients rest h
    simp [validateTxAux, h1, hunk] at h

/-- Claim C7 witness: the concrete key `#IBC/foo` is rejected with the
terminal `KeyError`. -/
theorem c7_witness :
    Key.is_ibc_key c7Key = true ∧
    validate_tx extUnit subUnit c7Ctx [] [c7Key] =
      some (.error (.KeyError ("Invalid IBC-related key: " ++ Key.raw c7Key))) :=
  ⟨by decide,
   (c7_unknown_ibc_prefix_key_error extUnit subUnit c7Ctx [] c7Key [] (by decide)
     (.inr ⟨DbKeySeg.StringSeg "foo", by decide, by decide⟩)).1⟩

/-! ## Claim C4 -/

theorem txIterLoop_spec (wl : WriteLog) :
    ∀ (iter : List (Key × List Nat)) (g : GasMeter) (buf : Option (List Nat)) (r : Int),
      (txIterLoop wl g buf iter).2.2.2 = .ok r →
      (∀ k v rest2, overlayFirst wl iter = some (k, v, rest2) →
        r = Int.ofNat (encodeKeyVal k v).length ∧
        (txIterLoop wl g buf iter).2.1 = some (encodeKeyVal k v) ∧
        (txIterLoop wl g buf iter).2.2.1 = rest2) ∧
      (overlayFirst wl iter = none →
        r = -1 ∧ (txIterLoop wl g buf iter).2.1 = buf) := by
  intro iter
  induction iter with
  | nil =>
    intro g buf r h
    exact ⟨fun k v rest2 hov => by simp [overlayFirst] at hov,
      fun _ => ⟨(Except.ok.inj h).symm, rfl⟩⟩
  | cons p rest ih =>
    intro g buf r h
    simp only [txIterLoop, overlayFirst] at h ⊢
    split at h
    · exact Except.noConfusion h
    · split at h
      · rename_i w heq
        refine ⟨fun k v rest2 hov => ?_, fun hov => by simp at hov⟩
        simp only [Option.some.injEq, Prod.mk.injEq] at hov
        obtain ⟨hk, hv, hr⟩ := hov
        subst hk; subst hv; subst hr
        exact ⟨(Except.ok.inj h).symm, rfl, rfl⟩
      · exact ih _ buf r h
      · exact ih _ buf r h
      · rename_i heq
        refine ⟨fun k v rest2 hov => ?_, fun hov => by simp at hov⟩
        simp only [Option.some.injEq, Prod.mk.injEq] at hov
        obtain ⟨hk, hv, hr⟩ := hov
        subst hk; subst hv; subst hr
        exact ⟨(Except.ok.inj h).symm, rfl, rfl⟩

/-- Claim C4: a successful `tx_iter_next` on a registered iterator follows
the write-log overlay of the underlying storage pairs: the first
surviving pair (a `Write` entry substituting the written value, `Delete`
and `InitAccount` entries skipped, otherwise the storage value) is
returned through the result buffer with its encoded length, and an
iterator with no surviving pair returns -1. -/
theorem c4_tx_iter_next_overlay (st : TxState) (id : Nat)
    (iter : List (Key × List Nat)) (r : Int)
    (hit : st.iterators.get? id = some iter)
    (h : (tx_iter_next st id).2 = .ok r) :
    (∀ k v rest2, overlayFirst st.writeLog iter = some (k, v, rest2) →
      r = Int.ofNat (encodeKeyVal k v).length ∧
      (tx_iter_next st id).1.resultBuffer = some (encodeKeyVal k v) ∧
      (tx_iter_next st id).1.iterators = st.iterators.set id rest2) ∧
    (overlayFirst st.writeLog iter = none →
      r = -1 ∧ (tx_iter_next st id).1.resultBuffer = st.resultBuffer) := by
  simp only [tx_iter_next, hit] at h ⊢
  have hs := txIterLoop_spec st.writeLog iter st.gas st.resultBuffer r h
  refine ⟨fun k v rest2 hov => ?_, fun hov => ?_⟩
  · obtain ⟨hr, hbuf, hrest⟩ := hs.1 k v rest2 hov
    exact ⟨hr, hbuf, by rw [hrest]⟩
  · exact ⟨(hs.2 hov).1, (hs.2 hov).2⟩

/-- Claim C4 witness: over storage pairs `a, b, c` with `a` deleted and
`b` overwritten in the write log, the first `tx_iter_next` yields `b` with
the written value. -/
theorem c4_witness :
    c4St.iterators.get? 0 = some [(c4KA, [1]), (c4KB, [2]), (c4KC, [3])] ∧
    (tx_iter_next c4St 0).2 = .ok 4 ∧
    (tx_iter_next c4St 0).1.resultBuffer = some (encodeKeyVal c4KB [9]) := by
  refine ⟨by decide, by decide, ?_⟩
  exact ((c4_tx_iter_next_overlay c4St 0 [(c4KA, [1]), (c4KB, [2]), (c4KC, [3])] 4
    (by decide) (by decide)).1 c4KB [9] [(c4KC, [3])] (by decide)).2.1

/-! ## Claim C5 -/

theorem checkAddrLoop_error_conditions (storage : StorageT) :
    ∀ (l : List Address) (st : TxState) (a : Address),
      (checkAddrLoop storage st l).2 = .error (.UnknownAddressStorageModification a) →
      a ∈ l ∧ a.isImplicitOrInternal = false ∧
      (st.writeLog.read (Key.validity_predicate a)).1 = none ∧
      (storageHasKey storage (Key.validity_predicate a)).1 = false := by
  intro l
  induction l with
  | nil =>
    intro st a h
    exact Except.noConfusion h
  | cons addr rest ih =>
    intro st a h
    simp only [checkAddrLoop] at h
    split at h
    · have hi := ih st a h
      exact ⟨List.mem_cons_of_mem _ hi.1, hi.2⟩
    · rename_i himp
      split at h
      · rename_i e heq
        have he := addGasT_error_eq heq
        subst he
        exact TxRuntimeError.noConfusion (Except.error.inj h)
      · split at h
        · rename_i hnone
          split at h
          · rename_i e heq
            have he := addGasT_error_eq heq
            subst he
            exact TxRuntimeError.noConfusion (Except.error.inj h)
          · split at h
            · have hi := ih _ a h
              refine ⟨List.mem_cons_of_mem _ hi.1, hi.2.1, ?_, hi.2.2.2⟩
              have hw : (addGasT (addGasT st
                  (st.writeLog.read (Key.validity_predicate addr)).2).1
                  (storageHasKey storage (Key.validity_predicate addr)).2).1.writeLog =
                  st.writeLog :=
                (eqButGas_trans (addGasT_eqButGas ..) (addGasT_eqButGas ..)).1
              exact hw ▸ hi.2.2.1
            · rename_i hpres
              have ha : addr = a :=
                TxRuntimeError.UnknownAddressStorageModification.inj (Except.error.inj h)
              subst ha
              refine ⟨List.mem_cons_self .., ?_, ?_, ?_⟩
              · simp at himp
                exact himp
              · exact Option.isNone_iff_eq_none.mp hnone
              · simp at hpres
                exact hpres
        · rename_i hsome
          have hi := ih _ a h
          refine ⟨List.mem_cons_of_mem _ hi.1, hi.2.1, ?_, hi.2.2.2⟩
          exact (addGasT_eqButGas ..).1 ▸ hi.2.2.1

theorem checkAddrLoop_finds_bad (storage : StorageT) :
    ∀ (l : List Address) (st : TxState),
      (∃ a, a ∈ l ∧ a.isImplicitOrInternal = false ∧
        (st.writeLog.read (Key.validity_predicate a)).1 = none ∧
        (storageHasKey storage (Key.validity_predicate a)).1 = false) →
      (checkAddrLoop storage st l).2 ≠ .error .OutOfGas →
      ∃ a2, (checkAddrLoop storage st l).2 =
        .error (.UnknownAddressStorageModification a2) := by
  intro l
  induction l with
  | nil =>
    intro st hex _
    obtain ⟨a, ha, _⟩ := hex
    simp at ha
  | cons addr rest ih =>
    intro st hex hng
    obtain ⟨a, ha, haii, hlog, hsto⟩ := hex
    simp only [checkAddrLoop] at hng ⊢
    split at hng
    · rename_i himp
      rw [if_pos himp]
      have hmem : a ∈ rest := by
        rcases List.mem_cons.mp ha with h1 | h1
        · subst h1
          rw [haii] at himp
          simp at himp
        · exact h1
      exact ih st ⟨a, hmem, haii, hlog, hsto⟩ hng
    · rename_i himp
      rw [if_neg himp]
      split at hng
      · rename_i e heq
        have he := addGasT_error_eq heq
        subst he
        exact absurd rfl hng
      · split at hng
        · rename_i hnone
          rw [if_pos hnone]
          split at hng
          · rename_i e heq
            have he := addGasT_error_eq heq
            subst he
            exact absurd rfl hng
          · split at hng
            · rename_i hpres
              rw [if_pos hpres]
              have hmem : a ∈ rest := by
                rcases List.mem_cons.mp ha with h1 | h1
                · subst h1
                  rw [hsto] at hpres
                  simp at hpres
                · exact h1
              refine ih _ ⟨a, hmem, haii, ?_, hsto⟩ hng
              rw [(eqButGas_trans (addGasT_eqButGas ..) (addGasT_eqButGas ..)).1]
              exact hlog
            · rename_i hpres
              rw [if_neg hpres]
              exact ⟨addr, rfl⟩
        · rename_i hsome
          rw [if_neg hsome]
          have hmem : a ∈ rest := by
            rcases List.mem_cons.mp ha with h1 | h1
            · subst h1
              rw [hlog] at hsome
              simp at hsome
            · exact h1
          refine ih _ ⟨a, hmem, haii, ?_, hsto⟩ hng
          rw [(addGasT_eqButGas ..).1]
          exact hlog

/-- Claim C5: without gas exhaustion, `tx_write` fails with
`UnknownAddressStorageModification` exactly when some address found in the
key, neither implicit nor internal, has a validity-predicate key with no
write-log entry and absent from storage; the failing address satisfies
those conditions, and on such a failure no `Write` entry is recorded -
the write log of the resulting state is unchanged. -/
theorem c5_tx_write_unknown_address (storage : StorageT) (st : TxState) (k : Key)
    (v : List Nat) (hng : (tx_write storage st k v).2 ≠ .error .OutOfGas) :
    ((∃ a, a ∈ k.find_addresses ∧ a.isImplicitOrInternal = false ∧
        (st.writeLog.read (Key.validity_predicate a)).1 = none ∧
        (storageHasKey storage (Key.validity_predicate a)).1 = false) ↔
      ∃ a, (tx_write storage st k v).2 =
        .error (.UnknownAddressStorageModification a)) ∧
    (∀ a, (tx_write storage st k v).2 =
        .error (.UnknownAddressStorageModification a) →
      (a ∈ k.find_addresses ∧ a.isImplicitOrInternal = false ∧
        (st.writeLog.read (Key.validity_predicate a)).1 = none ∧
        (storageHasKey storage (Key.validity_predicate a)).1 = false) ∧
      (tx_write storage st k v).1.writeLog = st.writeLog) := by
  have hw : (addGasT (addGasT st (keyReadGas k)).1 v.length).1.writeLog = st.writeLog :=
    (eqButGas_trans (addGasT_eqButGas ..) (addGasT_eqButGas ..)).1
  simp only [tx_write] at hng ⊢
  split at hng
  · rename_i e heq
    have he := addGasT_error_eq heq
    subst he
    exact absurd rfl hng
  · split at hng
    · rename_i e heq
      have he := addGasT_error_eq heq
      subst he
      exact absurd rfl hng
    · split at hng
      · rename_i e heq
        have hng2 : (checkAddrLoop storage (addGasT (addGasT st (keyReadGas k)).1
            v.length).1 k.find_addresses).2 ≠ .error .OutOfGas := by
          rw [heq]
          exact hng
        constructor
        · constructor
          · intro hex
            obtain ⟨a, hmem, haii, hlog, hsto⟩ := hex
            obtain ⟨a2, ha2⟩ := checkAddrLoop_finds_bad storage k.find_addresses _
              ⟨a, hmem, haii, by rw [hw]; exact hlog, hsto⟩ hng2
            refine ⟨a2, ?_⟩
            rw [Except.error.inj (heq.symm.trans ha2)]
          · intro hex
            obtain ⟨a, ha⟩ := hex
            have he2 : e = .UnknownAddressStorageModification a := Except.error.inj ha
            subst he2
            have hc := checkAddrLoop_error_conditions storage k.find_addresses _ a heq
            exact ⟨a, hc.1, hc.2.1, by rw [← hw]; exact hc.2.2.1, hc.2.2.2⟩
        · intro a ha
          have he2 : e = .UnknownAddressStorageModification a := Except.error.inj ha
          subst he2
          have hc := checkAddrLoop_error_conditions storage k.find_addresses _ a heq
          refine ⟨⟨hc.1, hc.2.1, by rw [← hw]; exact hc.2.2.1, hc.2.2.2⟩, ?_⟩
          exact ((eqButGas_trans (checkAddrLoop_eqButGas ..)
            (eqButGas_trans (addGasT_eqButGas ..) (addGasT_eqButGas ..))).1)
      · rename_i u heqok
        have hnobad : ¬ ∃ a, a ∈ k.find_addresses ∧ a.isImplicitOrInternal = false ∧
            (st.writeLog.read (Key.validity_predicate a)).1 = none ∧
            (storageHasKey storage (Key.validity_predicate a)).1 = false := by
          intro hex
          obtain ⟨a, hmem, haii, hlog, hsto⟩ := hex
          obtain ⟨a2, ha2⟩ := checkAddrLoop_finds_bad storage k.find_addresses _
            ⟨a, hmem, haii, by rw [hw]; exact hlog, hsto⟩ (by rw [heqok]; simp)
          rw [heqok] at ha2
          exact Except.noConfusion ha2
        split at hng
        · refine ⟨⟨fun hex => absurd hex hnobad, fun hex => ?_⟩, fun a ha => ?_⟩
          · obtain ⟨a, ha⟩ := hex
            exact absurd (Except.error.inj ha) (by simp)
          · exact absurd (Except.error.inj ha) (by simp)
        · refine ⟨⟨fun hex => absurd hex hnobad, fun hex => ?_⟩, fun a ha => ?_⟩
          · obtain ⟨a, ha⟩ := hex
            have := addGasT_error_eq ha
            exact TxRuntimeError.noConfusion this
          · have := addGasT_error_eq ha
            exact TxRuntimeError.noConfusion this

/-- Claim C5 witness: writing to a key holding an established address with
no VP anywhere fails with `UnknownAddressStorageModification` for that
address. -/
theorem c5_witness :
    (tx_write [] (mkTxState emptyWL) c5Key [1]).2 ≠ .error .OutOfGas ∧
    (∃ a, (tx_write [] (mkTxState emptyWL) c5Key [1]).2 =
      .error (.UnknownAddressStorageModification a)) :=
  ⟨by decide,
   (c5_tx_write_unknown_address [] (mkTxState emptyWL) c5Key [1] (by decide)).1.mp
     ⟨c5Addr, by decide, by decide, by decide, by decide⟩⟩

/-! ## Claim C6 -/

/-- Claim C6: for a client whose state change is `Created`, the IBC VP
accepts exactly when the posterior state holds the client type, the client
state, and a consensus state at the client state's latest height with all
three agreeing on the client type; when some component is missing or the
types mismatch the result is an `InvalidClient` error, and a state change
other than `Created` or `Updated` yields `InvalidStateChange`. -/
theorem c6_validate_created_client (ext : IbcExternal) (c : Ctx) (cid : String)
    (txData : List Nat) :
    (get_client_state_change c cid = .Created →
      ((validate_client ext c cid txData = .ok ()) ↔
        ∃ ct cs cons, client_type ext c cid = some ct ∧
          client_state_post ext c cid = some cs ∧
          consensus_state_post ext c cid cs.latestHeight = some cons ∧
          ct = cs.clientType ∧ ct = cons.clientType)) ∧
    (get_client_state_change c cid = .Created →
      validate_client ext c cid txData ≠ .ok () →
      ∃ s, validate_client ext c cid txData = .error (.InvalidClient s)) ∧
    ((get_client_state_change c cid = .Deleted ∨
        get_client_state_change c cid = .NotExists) →
      ∃ s, validate_client ext c cid txData = .error (.InvalidStateChange s)) := by
  refine ⟨fun hcr => ?_, fun hcr hne => ?_, fun hcr => ?_⟩
  · simp only [validate_client, hcr, validate_created_client]
    constructor
    · intro h
      cases hct : client_type ext c cid with
      | none =>
        simp only [hct] at h
        exact Except.noConfusion h
      | some ct =>
        simp only [hct] at h
        cases hcs : client_state_post ext c cid with
        | none =>
          simp only [hcs] at h
          exact Except.noConfusion h
        | some cs =>
          simp only [hcs] at h
          cases hcons : consensus_state_post ext c cid cs.latestHeight with
          | none =>
            simp only [hcons] at h
            exact Except.noConfusion h
          | some cons =>
            simp only [hcons] at h
            by_cases hc2 : ct = cs.clientType ∧ ct = cons.clientType
            · exact ⟨ct, cs, cons, rfl, rfl, hcons, hc2.1, hc2.2⟩
            · rw [if_neg hc2] at h
              exact Except.noConfusion h
    · rintro ⟨ct, cs, cons, h1, h2, h3, e1, e2⟩
      simp only [h1, h2, h3]
      rw [if_pos ⟨e1, e2⟩]
  · simp only [validate_client, hcr, validate_created_client] at hne ⊢
    cases hct : client_type ext c cid with
    | none =>
      simp only [hct]
      exact ⟨_, rfl⟩
    | some ct =>
      simp only [hct] at hne ⊢
      cases hcs : client_state_post ext c cid with
      | none =>
        simp only [hcs]
        exact ⟨_, rfl⟩
      | some cs =>
        simp only [hcs] at hne ⊢
        cases hcons : consensus_state_post ext c cid cs.latestHeight with
        | none =>
          simp only [hcons]
          exact ⟨_, rfl⟩
        | some cons =>
          simp only [hcons] at hne ⊢
          by_cases hc2 : ct = cs.clientType ∧ ct = cons.clientType
          · rw [if_pos hc2] at hne
            exact absurd rfl hne
          · rw [if_neg hc2]
            exact ⟨_, rfl⟩
  · rcases hcr with h | h <;>
      simp only [validate_client, h] <;>
      exact ⟨_, rfl⟩

/-- Claim C6 witness: client `c1`, created with matching type, state and
consensus components, is accepted. -/
theorem c6_witness :
    get_client_state_change c6Ctx "c1" = .Created ∧
    validate_client c6Ext c6Ctx "c1" [] = .ok () := by
  refine ⟨by decide, ?_⟩
  refine ((c6_validate_created_client c6Ext c6Ctx "c1" []).1 (by decide)).mpr ?_
  exact ⟨"mock", ⟨"mock", (1, 10)⟩, ⟨"mock"⟩, by decide, by decide, by decide, rfl, rfl⟩

end Anoma
